import Mathlib

/-!
Verification of the task-pipeline repository (gold_agent.py, domain_router.py,
mcp_file_ops.py, audit_logger.py) against its natural-language specification.

Shallow embedding conventions:
* File contents are `List Char`; filenames are `String`.
* Pure Python functions become Lean functions with the same names.
* Filesystem / network effects are made explicit: each operation takes the
  outcome of the underlying OS or network call as a parameter (e.g. whether a
  write succeeded, what the external completion call returned) and returns the
  value the Python function returns together with the audit entries it emits
  and the file-state changes it performs.
* The engine loop (`ralph_wiggum_loop`) is a fuelled recursion over an explicit
  `EngineState`; `MAX_LOOPS` is the fuel.  The model assumes the `Inbox`
  folder is empty (the drain stage is the identity then), which is the setting
  of every claim considered here.
-/

/-- The ASCII whitespace characters recognised by Python's `str.strip()` and
by the regex class `\s` (the claims only involve ASCII content). -/
def isPySpace (c : Char) : Bool :=
  c = ' ' || c = '\t' || c = '\n' || c = '\r' || c = '\x0b' || c = '\x0c'

/-- Python `str.strip()`: remove leading and trailing whitespace. -/
def pyStrip (s : List Char) : List Char :=
  ((s.dropWhile isPySpace).reverse.dropWhile isPySpace).reverse

/-- Python `str.lower()` restricted to ASCII (all keywords and headers in the
source are ASCII). -/
def pyLower (s : List Char) : List Char :=
  s.map Char.toLower

/-- Boolean substring test, Python's `kw in text`. -/
def isSubstr (pat : List Char) : List Char → Bool
  | [] => pat.isEmpty
  | c :: rest => pat.isPrefixOf (c :: rest) || isSubstr pat rest

/-- Audit entry as written by `audit_logger.log_action` (the `id`/`timestamp`
fields are generated per call and carry no information for the claims; the
`details` map is rendered as an association list of strings). -/
structure AuditEntry where
  server : String
  action : String
  details : List (String × String)
  success : Bool
deriving DecidableEq, Repr

/-- Domain label returned by the classifier. -/
inductive Domain where
  | business
  | personal
deriving DecidableEq, Repr

def domainStr : Domain → String
  | .business => "business"
  | .personal => "personal"

/-- Python `str.title()` applied to a domain label (`"business".title()`). -/
def domainTitle : Domain → List Char
  | .business => "Business".toList
  | .personal => "Personal".toList

/-- Keyword list `BUSINESS_KEYWORDS` from domain_router.py. -/
def BUSINESS_KEYWORDS : List (List Char) :=
  ["invoice", "meeting", "quarterly", "revenue", "client", "project",
   "deadline", "stakeholder", "budget", "sprint", "deployment", "release",
   "contract", "proposal", "vendor", "compliance", "audit", "report",
   "roadmap", "milestone", "kpi", "okr", "pipeline", "onboarding",
   "payroll", "hr", "marketing", "sales", "operations", "strategy"
  ].map String.toList

/-- Keyword list `PERSONAL_KEYWORDS` from domain_router.py. -/
def PERSONAL_KEYWORDS : List (List Char) :=
  ["grocery", "doctor", "appointment", "birthday", "vacation", "gym",
   "recipe", "family", "hobby", "travel", "personal", "reminder",
   "shopping", "health", "fitness", "pet", "home", "garden"
  ].map String.toList

/-- Attempts to match the regex `domain:\s*(business|personal)` at the head of
`s` (already lower-cased).  `\s*` is greedy, and since no whitespace character
can begin `business` or `personal`, matching at a position is equivalent to
skipping the maximal whitespace run after the literal `domain:`. -/
def headerLabelAt (s : List Char) : Option Domain :=
  if ("domain:".toList).isPrefixOf s then
    let rest := (s.drop 7).dropWhile isPySpace
    if ("business".toList).isPrefixOf rest then some .business
    else if ("personal".toList).isPrefixOf rest then some .personal
    else none
  else none

/-- Model of `re.search(r"domain:\s*(business|personal)", text)`: leftmost match. -/
def findHeader : List Char → Option Domain
  | [] => none
  | c :: rest =>
    match headerLabelAt (c :: rest) with
    | some d => some d
    | none => findHeader rest

/-- Score `biz_score` computed by `classify_task` on content `c` (the source lowers
the content first; `kw in text` is substring containment, each keyword
contributing at most 1). -/
def bizScore (c : List Char) : Nat :=
  (BUSINESS_KEYWORDS.filter (fun kw => isSubstr kw (pyLower c))).length

/-- Score `per_score` computed by `classify_task` on content `c`. -/
def perScore (c : List Char) : Nat :=
  (PERSONAL_KEYWORDS.filter (fun kw => isSubstr kw (pyLower c))).length

/-- Model of `domain_router.classify_task`: returns the domain label together with the
single audit entry the call emits (header path or keyword-scoring path). -/
def classify_task (content : List Char) : Domain × List AuditEntry :=
  let text := pyLower content
  match findHeader text with
  | some d =>
    (d, [⟨"domain_router", "classify_task",
          [("method", "header"), ("domain", domainStr d)], true⟩])
  | none =>
    let biz := (BUSINESS_KEYWORDS.filter (fun kw => isSubstr kw text)).length
    let per := (PERSONAL_KEYWORDS.filter (fun kw => isSubstr kw text)).length
    let dom : Domain :=
      if per < biz then .business
      else if biz < per then .personal
      else .business
    (dom, [⟨"domain_router", "classify_task",
            [("method", "keyword_score"), ("domain", domainStr dom),
             ("biz_score", toString biz), ("per_score", toString per)], true⟩])

/-- Folder chosen by `domain_router.route_task` for the archival copy. -/
inductive DomainFolder where
  | businessDir
  | personalDir
deriving DecidableEq, Repr

/-- Model of `domain_router.route_task` (the folder-selection core: it re-classifies the
content and maps the label to a directory; it also emits one audit entry). -/
def route_task (content : List Char) : DomainFolder × List AuditEntry :=
  let cls := classify_task content
  let target : DomainFolder :=
    match cls.1 with
    | .business => .businessDir
    | .personal => .personalDir
  (target, cls.2 ++ [⟨"domain_router", "route_task",
    [("domain", domainStr cls.1)], true⟩])

example : (classify_task "Domain: personal\nquarterly invoice meeting".toList).1
    = .personal := by decide

example : (classify_task "".toList).1 = .business := by decide

example : (classify_task "grocery doctor birthday".toList).1 = .personal := by
  decide

example : (classify_task "invoice meeting client grocery".toList).1
    = .business := by decide

/-! ## File Store (mcp_file_ops.py)

Each operation takes the outcome of the underlying OS call as an explicit
parameter and returns the Python return value together with the audit entries
emitted during the call. -/

/-- Ascending insertion, `a` placed before the first element not below it
(Python `sorted` is ascending and stable). -/
def insertAsc (a : String) : List String → List String
  | [] => [a]
  | b :: bs => if b < a then b :: insertAsc a bs else a :: b :: bs

/-- Lexicographic sort of filenames, Python's `sorted`. -/
def sortStr : List String → List String
  | [] => []
  | a :: as => insertAsc a (sortStr as)

/-- Model of `mcp_file_ops.list_tasks`: `folder = none` models an absent folder (the
source returns `[]` at once, before any `log_action` call); otherwise the
folder's directory listing is globbed for `*.md`, `.gitkeep` is excluded and
the result is sorted — and one audit entry is emitted. -/
def list_tasks (folder : Option (List String)) : List String × List AuditEntry :=
  match folder with
  | none => ([], [])
  | some names =>
    let results := sortStr ((names.filter
        (fun n => n.endsWith ".md")).filter (fun n => n ≠ ".gitkeep"))
    (results, [⟨"mcp_file_ops", "list_tasks",
      [("count", toString results.length)], true⟩])

/-- Model of `mcp_file_ops.read_task`: `raw = some s` is a successful
`read_text(errors="ignore")` returning `s` (then stripped); `raw = none`
covers a missing file or any other exception (the source returns `""`).
Exactly one audit entry either way. -/
def read_task (raw : Option (List Char)) : List Char × List AuditEntry :=
  match raw with
  | some s =>
    let content := pyStrip s
    (content, [⟨"mcp_file_ops", "read_task",
      [("chars", toString content.length)], true⟩])
  | none => ([], [⟨"mcp_file_ops", "read_task_error", [], false⟩])

/-- Model of `mcp_file_ops.write_task`: `ok` is whether `mkdir`+`write_text` succeed. -/
def write_task (ok : Bool) : Bool × List AuditEntry :=
  if ok then (true, [⟨"mcp_file_ops", "write_task", [], true⟩])
  else (false, [⟨"mcp_file_ops", "write_task_error", [], false⟩])

/-- Model of `mcp_file_ops.move_task`: fails up front when the source does not exist,
otherwise `moveOk` is whether `shutil.move` succeeds. -/
def move_task (srcExists : Bool) (moveOk : Bool) : Bool × List AuditEntry :=
  if !srcExists then
    (false, [⟨"mcp_file_ops", "move_task_error",
      [("reason", "src_not_found")], false⟩])
  else if moveOk then (true, [⟨"mcp_file_ops", "move_task", [], true⟩])
  else (false, [⟨"mcp_file_ops", "move_task_error", [], false⟩])

/-- Model of `mcp_file_ops.delete_task`: `unlink(missing_ok=True)`, so an absent file
is a success; `ok` is whether the unlink call raises. -/
def delete_task (ok : Bool) : Bool × List AuditEntry :=
  if ok then (true, [⟨"mcp_file_ops", "delete_task", [], true⟩])
  else (false, [⟨"mcp_file_ops", "delete_task_error", [], false⟩])

/-! ## Summarizer (gold_agent.openai_summarize) -/

/-- Outcome of the external completion call, when one is attempted. -/
inductive CallResult where
  | success (content : List Char)
  | failure (err : List Char)
deriving DecidableEq, Repr

/-- Spec-level status tags (`StatusTag ∈ {fallback, ok, empty, error}`); the
source realises them as the literal strings `"fallback"`, `"openai_ok"`,
`"openai_empty"`, `"openai_error"`. -/
inductive StatusTag where
  | fallback
  | ok
  | empty
  | error
deriving DecidableEq, Repr

/-- Mapping from the source's literal status strings to the spec's tags. -/
def specTagOf : String → Option StatusTag
  | "fallback" => some .fallback
  | "openai_ok" => some .ok
  | "openai_empty" => some .empty
  | "openai_error" => some .error
  | _ => none

/-- Result of `openai_summarize`: the returned `(text, status)` pair plus the
audit entries the call emits. -/
structure SummOut where
  text : List Char
  status : String
  audits : List AuditEntry
deriving DecidableEq, Repr

/-- The deterministic fallback message returned when the capability is not
configured. -/
def fallbackText : List Char :=
  ("Gold Agent processed this task. (fallback: OpenAI not configured)\n"
    ++ "- Task has been classified and routed\n"
    ++ "- Content preserved in original section\n"
    ++ "- Ready for human review").toList

/-- The placeholder message for an empty response. -/
def emptyText : List Char :=
  "Summary generated but empty response.".toList

/-- The message embedding the error detail for a failed call. -/
def errorText (e : List Char) : List Char :=
  "(OpenAI error — graceful fallback)\n- Error: ".toList ++ e
    ++ ("\n- Task preserved and classified\n"
        ++ "- Retry or manual review recommended").toList

/-- Model of `gold_agent.openai_summarize`.  Parameter `configured` is
`bool(api_key and OpenAI is not None)`; when it is false the function returns
the fallback before attempting any external call, so the result cannot depend
on `call`.  A successful call's content is stripped and tested for emptiness;
any exception inside the `try` block is the `failure` case.  Every branch
emits exactly one audit entry and none re-raises. -/
def openai_summarize (configured : Bool) (call : CallResult) : SummOut :=
  if !configured then
    { text := fallbackText, status := "fallback",
      audits := [⟨"gold_agent", "openai_fallback",
        [("reason", "no_key_or_lib")], true⟩] }
  else
    match call with
    | .success content =>
      let text := pyStrip content
      if text.isEmpty then
        { text := emptyText, status := "openai_empty",
          audits := [⟨"gold_agent", "openai_empty", [], true⟩] }
      else
        { text := text, status := "openai_ok",
          audits := [⟨"gold_agent", "openai_success",
            [("chars", toString text.length)], true⟩] }
    | .failure e =>
      { text := errorText e, status := "openai_error",
        audits := [⟨"gold_agent", "openai_error", [], false⟩] }

example : (openai_summarize false (.success "hi".toList)).status = "fallback" := by
  decide

example : (openai_summarize true (.success "  \n ".toList)).status
    = "openai_empty" := by decide

/-! ## ProcessOne (gold_agent.process_task)

The function's filesystem effects are captured in a `TaskEffect` record; the
outcome of every fallible OS step it performs is an explicit `Flags`
parameter.  An exception raised at any point inside the `try` block lands in
the outer `except`, which logs `task_error` and returns `False`. -/

/-- Outcomes of the fallible OS steps inside `process_task`, in program
order.  `earlyRaise` stands for an exception after the read but before the
`Done` write (e.g. `DONE.mkdir` failing); `lateRaise` for an exception after
the source unlink (the run-log append or the prompt-history write failing).
`write_task` itself never raises — a failed write only returns `False`,
which `process_task` ignores. -/
structure Flags where
  readOk : Bool
  earlyRaise : Bool
  moveOk : Bool
  writeDoneOk : Bool
  writeDomainOk : Bool
  unlinkRaises : Bool
  lateRaise : Bool
deriving DecidableEq, Repr

/-- Flags for a run in which every OS step succeeds. -/
def allOkFlags : Flags :=
  { readOk := true, earlyRaise := false, moveOk := true, writeDoneOk := true,
    writeDomainOk := true, unlinkRaises := false, lateRaise := false }

/-- Observable effect of one `process_task` call on the vault state, plus the
value it returns.  `doneWrite` is the content placed at `Done/name` (by the
skip-branch move or by the `Done` write), if any; `removedFromPending` says
whether the source file left `Needs_Action`; `classified` / `routeDomain` /
`summarized` are ghost observations recording whether (and with which result)
the classifier and summarizer were invoked. -/
structure TaskEffect where
  ret : Bool
  doneWrite : Option (List Char)
  archive : Option (DomainFolder × List Char)
  removedFromPending : Bool
  classified : Option Domain
  routeDomain : Option DomainFolder
  summarized : Bool
  audits : List AuditEntry
deriving DecidableEq, Repr

/-- Output document composed by `process_task` (`output = ...` in the
source). -/
def outputDoc (domain : Domain) (ts model status original summary : List Char) :
    List Char :=
  "# Processed Task (Gold Tier)\n\n**Domain:** ".toList ++ domainTitle domain
    ++ "\n**Processed:** ".toList ++ ts
    ++ "\n**Model:** ".toList ++ model
    ++ "\n**Status:** ".toList ++ status
    ++ "\n\n## Original Content\n".toList ++ original
    ++ "\n\n## AI Summary\n".toList ++ summary
    ++ "\n\nStatus: Completed\n".toList

/-- Model of `gold_agent.process_task`.  Parameters: `raw` is the on-disk
content of `Needs_Action/name` (`none` when the file is missing), `configured`
and `call` feed `openai_summarize`, `ts` is the value of `utc_ts()` during the
call, `model` the `MODEL` configuration, and `fl` the OS-step outcomes. -/
def process_task (raw : Option (List Char)) (configured : Bool)
    (call : CallResult) (ts model : List Char) (fl : Flags) : TaskEffect :=
  let readRes := read_task (if fl.readOk then raw else none)
  let original := readRes.1
  if original.isEmpty then
    -- `if not original:` — skip_empty_task, then move the raw file to Done.
    let srcExists := raw.isSome
    let mv := move_task srcExists fl.moveOk
    { ret := true
      doneWrite := if srcExists && fl.moveOk then raw else none
      archive := none
      removedFromPending := srcExists && fl.moveOk
      classified := none
      routeDomain := none
      summarized := false
      audits := readRes.2
        ++ [⟨"gold_agent", "skip_empty_task", [], true⟩] ++ mv.2 }
  else
    let cls := classify_task original
    let domain := cls.1
    let s := openai_summarize configured call
    let output := outputDoc domain ts model s.status.toList original s.text
    if fl.earlyRaise then
      { ret := false, doneWrite := none, archive := none
        removedFromPending := false
        classified := some domain, routeDomain := none, summarized := true
        audits := readRes.2 ++ cls.2 ++ s.audits
          ++ [⟨"gold_agent", "task_error", [], false⟩] }
    else
      let wd := write_task fl.writeDoneOk
      let route := route_task original
      let wa := write_task fl.writeDomainOk
      let doneWrite := if fl.writeDoneOk then some output else none
      let archive := if fl.writeDomainOk then some (route.1, output) else none
      let baseAudits := readRes.2 ++ cls.2 ++ s.audits ++ wd.2 ++ route.2 ++ wa.2
      if fl.unlinkRaises then
        { ret := false, doneWrite := doneWrite, archive := archive
          removedFromPending := false
          classified := some domain, routeDomain := some route.1
          summarized := true
          audits := baseAudits ++ [⟨"gold_agent", "task_error", [], false⟩] }
      else if fl.lateRaise then
        { ret := false, doneWrite := doneWrite, archive := archive
          removedFromPending := true
          classified := some domain, routeDomain := some route.1
          summarized := true
          audits := baseAudits ++ [⟨"gold_agent", "task_error", [], false⟩] }
      else
        { ret := true, doneWrite := doneWrite, archive := archive
          removedFromPending := true
          classified := some domain, routeDomain := some route.1
          summarized := true
          audits := baseAudits
            ++ [⟨"gold_agent", "task_completed", [], true⟩] }

example :
    (process_task (some "invoice due".toList) false (.failure [])
      "2026-01-01 00:00:00Z".toList "gpt-4o-mini".toList allOkFlags).ret
      = true := by decide

example :
    (process_task (some " \n ".toList) false (.failure [])
      "2026-01-01 00:00:00Z".toList "gpt-4o-mini".toList allOkFlags).summarized
      = false := by decide

/-! ## Pipeline Engine (gold_agent.ralph_wiggum_loop)

State of one run.  `pending` is the `Needs_Action` listing, `done` maps a
filename to the current content of `Done/<name>` (newest entry first: a new
write shadows an older one, like `write_task`'s overwrite), `retries` is
`stats["retries"]` (lookup defaulting to 0), and `processed` / `failed` /
`loops` are the run counters.  `attempts` is a ghost counter: how many times
`process_task` has been invoked on each name.  `audits` accumulates the
engine's own `log_action` calls (newest first).  `crashed` records that an
uncaught exception has propagated out of the loop (the escalation branch's
bare `src.unlink()` raising): once set, nothing further executes in the
run. -/

structure EngineState where
  pending : List String
  done : List (String × List Char)
  retries : List (String × Nat)
  processed : Nat
  failed : Nat
  loops : Nat
  attempts : List (String × Nat)
  audits : List AuditEntry
  crashed : Bool
deriving DecidableEq, Repr

/-- Lookup in a name-to-Nat association list, defaulting to 0
(`stats["retries"].get(name, 0)`). -/
def lookupN (l : List (String × Nat)) (n : String) : Nat :=
  (l.lookup n).getD 0

/-- Terminal failure document written on retry exhaustion (`error_content` in
the source). -/
def errorDoc (mr : Nat) (ts : List Char) : List Char :=
  "# Failed Task (Gold Tier)\n\n**Error:** Max retries (".toList
    ++ (toString mr).toList
    ++ ") exceeded\n**Time:** ".toList ++ ts
    ++ "\n\nStatus: Failed\n".toList

/-- Outcomes of the OS calls inside the loop's escalation branch
(gold_agent.py lines 273-276): `writeOk` is whether the terminal-document
`write_task` succeeds — the loop ignores its return value either way, so on
failure no document reaches `Done` — and `unlinkRaises` is whether
`src.unlink()` raises; that call sits in no `try` block, so a raise
propagates out of `ralph_wiggum_loop` and aborts the run. -/
structure EscFlags where
  writeOk : Bool
  unlinkRaises : Bool
deriving DecidableEq, Repr

/-- Escalation outcomes for a step in which both OS calls succeed. -/
def cleanEsc : EscFlags :=
  { writeOk := true, unlinkRaises := false }

/-- Application of one `process_task` invocation's effect to the engine
state: the file moves/writes happen inside `process_task` (`eff`); the loop
itself then increments `tasks_processed` on `True` or bumps the retry counter
on `False` (`stats["retries"][name] = retry_count + 1`). -/
def applyEffect (st : EngineState) (name : String) (eff : TaskEffect) :
    EngineState :=
  let st' : EngineState :=
    { st with
      attempts := (name, lookupN st.attempts name + 1) :: st.attempts
      done := match eff.doneWrite with
        | some d => (name, d) :: st.done
        | none => st.done
      pending := if eff.removedFromPending then
          st.pending.filter (fun n => n ≠ name)
        else st.pending }
  if eff.ret then { st' with processed := st'.processed + 1 }
  else
    { st' with
      retries := (name, lookupN st.retries name + 1) :: st'.retries }

/-- One iteration of the inner `for name in pending:` body.  If the retry
counter has reached `mr` (`MAX_RETRIES`) the engine escalates: it logs
`max_retries_reached` as a non-success event, calls `write_task` for the
terminal failure document (ignoring its result, so the document is in `Done`
only when `esc.writeOk`), then unlinks the source and increments the failed
counter — unless the unlink raises, in which case the exception propagates
uncaught and the run crashes with the source still in `Pending` and the
failed counter not incremented.  Otherwise it invokes `process_task`, whose
effect is `eff`. -/
def engineStep (mr : Nat) (ts : List Char) (st : EngineState) (name : String)
    (eff : TaskEffect) (esc : EscFlags) : EngineState :=
  let rc := lookupN st.retries name
  if mr ≤ rc then
    let st1 : EngineState :=
      { st with
        audits := ⟨"gold_agent", "max_retries_reached",
          [("retries", toString rc)], false⟩ :: st.audits
        done := if esc.writeOk then (name, errorDoc mr ts) :: st.done
          else st.done }
    if esc.unlinkRaises then { st1 with crashed := true }
    else
      { st1 with
        pending := st1.pending.filter (fun n => n ≠ name)
        failed := st1.failed + 1 }
  else
    applyEffect st name eff

/-- Process stage of one loop iteration: fold the step over the snapshot of
the `Needs_Action` listing taken at the start of the stage (`pending = ...`
then `for name in pending:`).  `effOf name` is the effect of the
`process_task` invocation on `name` during this stage, `escOf name` the OS
outcomes of its escalation branch.  A crash aborts the remainder of the
stage: later names are not reached. -/
def processStage (mr : Nat) (ts : List Char) (effOf : String → TaskEffect)
    (escOf : String → EscFlags) (st : EngineState) : EngineState :=
  st.pending.foldl
    (fun s n => if s.crashed then s
      else engineStep mr ts s n (effOf n) (escOf n)) st

/-- Model of `ralph_wiggum_loop` for an empty `Inbox`: `fuel` is the number of
remaining loop iterations (`MAX_LOOPS` initially); `effOf i name` is the
effect of the `process_task` invocation on `name` during loop iteration `i`,
`escOf i name` the escalation OS outcomes.  Each iteration increments the
loop counter, exits if `Needs_Action` is empty, otherwise runs the process
stage; a crash ends the run immediately, as does `Needs_Action` becoming
empty. -/
def runLoop (mr : Nat) (ts : List Char) (effOf : Nat → String → TaskEffect)
    (escOf : Nat → String → EscFlags) : Nat → EngineState → EngineState
  | 0, st => st
  | fuel + 1, st =>
    let st1 : EngineState := { st with loops := st.loops + 1 }
    if st1.pending.isEmpty then st1
    else
      let st2 := processStage mr ts (effOf st1.loops) (escOf st1.loops) st1
      if st2.crashed then st2
      else if st2.pending.isEmpty then st2
      else runLoop mr ts effOf escOf fuel st2

/-- Initial engine state with the given `Needs_Action` listing. -/
def initState (pending : List String) : EngineState :=
  { pending := pending, done := [], retries := [], processed := 0,
    failed := 0, loops := 0, attempts := [], audits := [], crashed := false }

/-- Effect of a `process_task` attempt that raises before reaching the `Done`
write: the file is left in place and `False` is returned (spec 4.4d). -/
def failEffect : TaskEffect :=
  { ret := false, doneWrite := none, archive := none
    removedFromPending := false, classified := none, routeDomain := none
    summarized := false, audits := [⟨"gold_agent", "task_error", [], false⟩] }

example :
    (runLoop 2 "t".toList (fun _ _ => failEffect) (fun _ _ => cleanEsc) 3
      (initState ["a.md"])).failed = 1 := by decide

example :
    lookupN (runLoop 2 "t".toList (fun _ _ => failEffect) (fun _ _ => cleanEsc) 3
      (initState ["a.md"])).attempts "a.md" = 2 := by decide

example :
    (runLoop 2 "t".toList (fun _ _ => failEffect) (fun _ _ => cleanEsc) 3
      (initState ["a.md"])).loops = 3 := by decide

/-! ### Association-list lookup lemmas -/

@[simp] lemma lookupN_nil (n : String) : lookupN [] n = 0 := rfl

@[simp] lemma lookupN_cons_self (n : String) (v : Nat) (l : List (String × Nat)) :
    lookupN ((n, v) :: l) n = v := by
  simp [lookupN, List.lookup]

lemma lookupN_cons_ne (m n : String) (v : Nat) (l : List (String × Nat))
    (h : m ≠ n) : lookupN ((n, v) :: l) m = lookupN l m := by
  have hb : (m == n) = false := beq_eq_false_iff_ne.mpr h
  simp [lookupN, List.lookup, hb]

@[simp] lemma lookupD_cons_self (n : String) (d : List Char)
    (l : List (String × List Char)) : ((n, d) :: l).lookup n = some d := by
  simp [List.lookup]

lemma lookupD_cons_ne (m n : String) (d : List Char)
    (l : List (String × List Char)) (h : m ≠ n) :
    ((n, d) :: l).lookup m = l.lookup m := by
  have hb : (m == n) = false := beq_eq_false_iff_ne.mpr h
  simp [List.lookup, hb]

lemma mem_filter_ne (f g : String) (L : List String) (h : f ≠ g) :
    f ∈ L.filter (fun n => n ≠ g) ↔ f ∈ L := by
  simp [List.mem_filter, h]

lemma not_mem_filter_self (g : String) (L : List String) :
    g ∉ L.filter (fun n => n ≠ g) := by
  simp [List.mem_filter]

/-! ### Per-name projection lemmas for the engine step -/

/-- Field-level description of the escalation branch for arbitrary OS
outcomes: retry state, attempt counts and run counters other than `failed`
are untouched; the terminal document reaches `Done` exactly when its write
succeeds; the source leaves `Pending` and the failed counter increments
exactly when the unlink does not raise, a raise instead setting the crash
flag. -/
lemma engineStep_escalate_fields (mr : Nat) (ts : List Char) (st : EngineState)
    (name : String) (eff : TaskEffect) (esc : EscFlags)
    (h : mr ≤ lookupN st.retries name) :
    (engineStep mr ts st name eff esc).retries = st.retries ∧
    (engineStep mr ts st name eff esc).attempts = st.attempts ∧
    (engineStep mr ts st name eff esc).done
      = (if esc.writeOk then (name, errorDoc mr ts) :: st.done else st.done) ∧
    (engineStep mr ts st name eff esc).pending
      = (if esc.unlinkRaises then st.pending
          else st.pending.filter (fun n => n ≠ name)) ∧
    (engineStep mr ts st name eff esc).failed
      = (if esc.unlinkRaises then st.failed else st.failed + 1) ∧
    (engineStep mr ts st name eff esc).crashed
      = (esc.unlinkRaises || st.crashed) ∧
    (engineStep mr ts st name eff esc).processed = st.processed ∧
    (engineStep mr ts st name eff esc).loops = st.loops ∧
    (engineStep mr ts st name eff esc).audits
      = ⟨"gold_agent", "max_retries_reached",
          [("retries", toString (lookupN st.retries name))], false⟩
        :: st.audits := by
  unfold engineStep
  by_cases hu : esc.unlinkRaises <;> simp [h, hu]

/-- A step whose escalation unlink does not raise preserves the crash flag
(the non-escalation branch never touches it). -/
lemma engineStep_crashed (mr : Nat) (ts : List Char) (st : EngineState)
    (g : String) (e : TaskEffect) (esc : EscFlags)
    (hu : esc.unlinkRaises = false) :
    (engineStep mr ts st g e esc).crashed = st.crashed := by
  by_cases h1 : mr ≤ lookupN st.retries g
  · rw [(engineStep_escalate_fields mr ts st g e esc h1).2.2.2.2.2.1, hu]
    exact Bool.false_or st.crashed
  · unfold engineStep applyEffect
    simp only [h1, if_false]
    by_cases h2 : e.ret <;> simp [h2]

/-- Effect of an `engineStep` on a *different* name `g`: all of `f`'s
observables (retry counter, attempt counter, `Done` content, membership in
`Pending`) are untouched, and `Pending` stays duplicate-free — whatever the
escalation OS outcomes. -/
lemma engineStep_preserve (mr : Nat) (ts : List Char) (st : EngineState)
    (f g : String) (e : TaskEffect) (esc : EscFlags) (hne : f ≠ g) :
    lookupN (engineStep mr ts st g e esc).retries f = lookupN st.retries f ∧
    lookupN (engineStep mr ts st g e esc).attempts f = lookupN st.attempts f ∧
    (engineStep mr ts st g e esc).done.lookup f = st.done.lookup f ∧
    (f ∈ (engineStep mr ts st g e esc).pending ↔ f ∈ st.pending) ∧
    (st.pending.Nodup → (engineStep mr ts st g e esc).pending.Nodup) := by
  by_cases h1 : mr ≤ lookupN st.retries g
  · have hf := engineStep_escalate_fields mr ts st g e esc h1
    refine ⟨by rw [hf.1], by rw [hf.2.1], ?_, ?_, ?_⟩
    · rw [hf.2.2.1]
      by_cases hw : esc.writeOk
      · rw [if_pos hw]
        exact lookupD_cons_ne f g _ _ hne
      · rw [if_neg hw]
    · rw [hf.2.2.2.1]
      by_cases hu : esc.unlinkRaises
      · rw [if_pos hu]
      · rw [if_neg hu]
        exact mem_filter_ne f g _ hne
    · rw [hf.2.2.2.1]
      by_cases hu : esc.unlinkRaises
      · rw [if_pos hu]
        exact id
      · rw [if_neg hu]
        exact fun h => h.filter _
  · unfold engineStep applyEffect
    simp only [h1, if_false]
    by_cases h2 : e.ret
    · simp only [h2, if_true]
      refine ⟨trivial, lookupN_cons_ne f g _ _ hne, ?_, ?_, ?_⟩
      · cases e.doneWrite with
        | none => rfl
        | some d => exact lookupD_cons_ne f g _ _ hne
      · by_cases h3 : e.removedFromPending
        · simp only [h3, if_true]
          exact mem_filter_ne f g _ hne
        · simp only [h3, if_false]
          exact Iff.rfl
      · by_cases h3 : e.removedFromPending
        · simp only [h3, if_true]
          exact fun h => h.filter _
        · simp only [h3, if_false]
          exact id
    · simp only [h2, if_false]
      refine ⟨lookupN_cons_ne f g _ _ hne, lookupN_cons_ne f g _ _ hne, ?_, ?_, ?_⟩
      · cases e.doneWrite with
        | none => rfl
        | some d => exact lookupD_cons_ne f g _ _ hne
      · by_cases h3 : e.removedFromPending
        · simp only [h3, if_true]
          exact mem_filter_ne f g _ hne
        · simp only [h3, if_false]
          exact Iff.rfl
      · by_cases h3 : e.removedFromPending
        · simp only [h3, if_true]
          exact fun h => h.filter _
        · simp only [h3, if_false]
          exact id

/-- Effect of an `engineStep` on `f` itself while its retry budget is not
exhausted and the attempt fails in place: the retry and attempt counters each
go up by one, `Pending` is left exactly as it was, and the crash flag is
untouched. -/
lemma engineStep_self_fail (mr : Nat) (ts : List Char) (st : EngineState)
    (f : String) (e : TaskEffect) (esc : EscFlags)
    (hrc : lookupN st.retries f < mr)
    (hret : e.ret = false) (hrm : e.removedFromPending = false) :
    lookupN (engineStep mr ts st f e esc).retries f = lookupN st.retries f + 1 ∧
    lookupN (engineStep mr ts st f e esc).attempts f
      = lookupN st.attempts f + 1 ∧
    (engineStep mr ts st f e esc).pending = st.pending ∧
    (engineStep mr ts st f e esc).crashed = st.crashed := by
  have h1 : ¬ mr ≤ lookupN st.retries f := by omega
  unfold engineStep applyEffect
  simp only [h1, if_false, hret, hrm, Bool.false_eq_true, if_false]
  exact ⟨lookupN_cons_self _ _ _, lookupN_cons_self _ _ _, trivial, trivial⟩

/-- Effect of an `engineStep` on `f` itself once its retry budget is
exhausted, when both escalation OS calls succeed: the terminal failure
document is written, the source leaves `Pending`, the failed counter
increments, and nothing else changes — in particular no `process_task`
attempt is recorded. -/
lemma engineStep_self_escalate (mr : Nat) (ts : List Char) (st : EngineState)
    (f : String) (e : TaskEffect) (esc : EscFlags)
    (hrc : mr ≤ lookupN st.retries f)
    (hw : esc.writeOk = true) (hu : esc.unlinkRaises = false) :
    (engineStep mr ts st f e esc).retries = st.retries ∧
    (engineStep mr ts st f e esc).attempts = st.attempts ∧
    (engineStep mr ts st f e esc).pending
      = st.pending.filter (fun n => n ≠ f) ∧
    (engineStep mr ts st f e esc).done = (f, errorDoc mr ts) :: st.done ∧
    (engineStep mr ts st f e esc).failed = st.failed + 1 ∧
    (engineStep mr ts st f e esc).processed = st.processed ∧
    (engineStep mr ts st f e esc).audits
      = ⟨"gold_agent", "max_retries_reached",
          [("retries", toString (lookupN st.retries f))], false⟩
        :: st.audits ∧
    (engineStep mr ts st f e esc).crashed = st.crashed := by
  have hf := engineStep_escalate_fields mr ts st f e esc hrc
  refine ⟨hf.1, hf.2.1, ?_, ?_, ?_, hf.2.2.2.2.2.2.1, hf.2.2.2.2.2.2.2.2, ?_⟩
  · rw [hf.2.2.2.1, hu]
    simp
  · rw [hf.2.2.1, hw]
    simp
  · rw [hf.2.2.2.2.1, hu]
    simp
  · rw [hf.2.2.2.2.2.1, hu]
    exact Bool.false_or st.crashed

/-! ### Stage-level and run-level projection lemmas -/

/-- Folding the stage step over a list of names that does not contain `f`
leaves all of `f`'s observables untouched (a crash short-circuits the rest of
the fold, which preserves them trivially). -/
lemma stageFold_preserve (mr : Nat) (ts : List Char)
    (effOf : String → TaskEffect) (escOf : String → EscFlags) (f : String) :
    ∀ (L : List String) (st : EngineState), f ∉ L →
    lookupN ((L.foldl (fun s n => if s.crashed then s
        else engineStep mr ts s n (effOf n) (escOf n)) st)).retries f
      = lookupN st.retries f ∧
    lookupN ((L.foldl (fun s n => if s.crashed then s
        else engineStep mr ts s n (effOf n) (escOf n)) st)).attempts f
      = lookupN st.attempts f ∧
    ((L.foldl (fun s n => if s.crashed then s
        else engineStep mr ts s n (effOf n) (escOf n)) st)).done.lookup f
      = st.done.lookup f ∧
    (f ∈ ((L.foldl (fun s n => if s.crashed then s
        else engineStep mr ts s n (effOf n) (escOf n)) st)).pending
      ↔ f ∈ st.pending) ∧
    (st.pending.Nodup →
      ((L.foldl (fun s n => if s.crashed then s
        else engineStep mr ts s n (effOf n) (escOf n)) st)).pending.Nodup) := by
  intro L
  induction L with
  | nil => intro st _; exact ⟨rfl, rfl, rfl, Iff.rfl, id⟩
  | cons g L ih =>
    intro st hL
    have hgf : f ≠ g := fun h => hL (h ▸ List.mem_cons_self g L)
    have hL' : f ∉ L := fun h => hL (List.mem_cons_of_mem g h)
    simp only [List.foldl_cons]
    by_cases hc : st.crashed
    · rw [if_pos hc]
      exact ih st hL'
    · rw [if_neg hc]
      have h1 := engineStep_preserve mr ts st f g (effOf g) (escOf g) hgf
      have h2 := ih (engineStep mr ts st g (effOf g) (escOf g)) hL'
      refine ⟨h2.1.trans h1.1, h2.2.1.trans h1.2.1, h2.2.2.1.trans h1.2.2.1,
        h2.2.2.2.1.trans h1.2.2.2.1, fun hnd => h2.2.2.2.2 (h1.2.2.2.2 hnd)⟩

/-- When no escalation unlink raises during a stage, the crash flag stays
down across the whole fold. -/
lemma stageFold_crashed (mr : Nat) (ts : List Char)
    (effOf : String → TaskEffect) (escOf : String → EscFlags)
    (hcln : ∀ n, (escOf n).unlinkRaises = false) :
    ∀ (L : List String) (st : EngineState), st.crashed = false →
    ((L.foldl (fun s n => if s.crashed then s
        else engineStep mr ts s n (effOf n) (escOf n)) st)).crashed = false := by
  intro L
  induction L with
  | nil => intro st hc; exact hc
  | cons g L ih =>
    intro st hc
    simp only [List.foldl_cons]
    have hcne : ¬ st.crashed = true := by rw [hc]; exact Bool.false_ne_true
    rw [if_neg hcne]
    exact ih _ ((engineStep_crashed mr ts st g (effOf g) (escOf g) (hcln g)).trans hc)

/-- Once `f` has left `Pending`, the rest of the run can no longer touch any
of its observables (no stage ever processes it again). -/
lemma runLoop_preserve (mr : Nat) (ts : List Char)
    (effOf : Nat → String → TaskEffect) (escOf : Nat → String → EscFlags)
    (f : String) :
    ∀ (fuel : Nat) (st : EngineState), f ∉ st.pending →
    lookupN (runLoop mr ts effOf escOf fuel st).retries f
      = lookupN st.retries f ∧
    lookupN (runLoop mr ts effOf escOf fuel st).attempts f
      = lookupN st.attempts f ∧
    (runLoop mr ts effOf escOf fuel st).done.lookup f = st.done.lookup f ∧
    f ∉ (runLoop mr ts effOf escOf fuel st).pending := by
  intro fuel
  induction fuel with
  | zero => intro st h; exact ⟨rfl, rfl, rfl, h⟩
  | succ fl ih =>
    intro st h
    unfold runLoop
    by_cases hemp : st.pending.isEmpty
    · simp only [hemp, if_true]
      exact ⟨trivial, trivial, trivial, h⟩
    · simp only [hemp, Bool.false_eq_true, if_false]
      set st1 : EngineState := { st with loops := st.loops + 1 } with hst1
      have hstage := stageFold_preserve mr ts (effOf st1.loops) (escOf st1.loops)
        f st1.pending st1 h
      set st2 := processStage mr ts (effOf st1.loops) (escOf st1.loops) st1
        with hst2
      have hst2eq : st2 = st1.pending.foldl
          (fun s n => if s.crashed then s
            else engineStep mr ts s n (effOf st1.loops n) (escOf st1.loops n))
          st1 := rfl
      rw [hst2eq] at *
      have hnotmem : f ∉ (st1.pending.foldl
          (fun s n => if s.crashed then s
            else engineStep mr ts s n (effOf st1.loops n) (escOf st1.loops n))
          st1).pending :=
        fun hmem => h (hstage.2.2.2.1.mp hmem)
      by_cases hcr : (st1.pending.foldl
          (fun s n => if s.crashed then s
            else engineStep mr ts s n (effOf st1.loops n) (escOf st1.loops n))
          st1).crashed
      · simp only [hcr, if_true]
        exact ⟨hstage.1, hstage.2.1, hstage.2.2.1, hnotmem⟩
      · simp only [hcr, Bool.false_eq_true, if_false]
        by_cases hemp2 : (st1.pending.foldl
            (fun s n => if s.crashed then s
              else engineStep mr ts s n (effOf st1.loops n) (escOf st1.loops n))
            st1).pending.isEmpty
        · simp only [hemp2, if_true]
          exact ⟨hstage.1, hstage.2.1, hstage.2.2.1, hnotmem⟩
        · simp only [hemp2, Bool.false_eq_true, if_false]
          have hrest := ih _ hnotmem
          exact ⟨hrest.1.trans hstage.1, hrest.2.1.trans hstage.2.1,
            hrest.2.2.1.trans hstage.2.2.1, hrest.2.2.2⟩

/-- Main induction for the retry bound: while `f`'s attempts keep failing in
place, each iteration raises its retry and attempt counters in lockstep until
the budget `mr` is exhausted, at which point the next iteration's pre-check
escalates it without a further attempt — provided `f`'s own terminal-document
write succeeds and no escalation unlink raises anywhere in the run (an
uncaught raise would abort it). -/
lemma retryBound_aux (mr : Nat) (ts : List Char)
    (effOf : Nat → String → TaskEffect) (escOf : Nat → String → EscFlags)
    (f : String)
    (hfail : ∀ i, (effOf i f).ret = false ∧ (effOf i f).removedFromPending = false)
    (hwrite : ∀ i, (escOf i f).writeOk = true)
    (hnocrash : ∀ i n, (escOf i n).unlinkRaises = false) :
    ∀ (fuel k : Nat) (st : EngineState), f ∈ st.pending → st.pending.Nodup →
      st.crashed = false →
      lookupN st.retries f = k → lookupN st.attempts f = k →
      k ≤ mr → mr + 1 ≤ fuel + k →
      lookupN (runLoop mr ts effOf escOf fuel st).attempts f = mr ∧
      lookupN (runLoop mr ts effOf escOf fuel st).retries f = mr ∧
      f ∉ (runLoop mr ts effOf escOf fuel st).pending ∧
      (runLoop mr ts effOf escOf fuel st).done.lookup f
        = some (errorDoc mr ts) := by
  intro fuel
  induction fuel with
  | zero =>
    intro k st _ _ _ _ _ hk hfu
    omega
  | succ fl ih =>
    intro k st hmem hnd hcrash hr ha hk hfu
    unfold runLoop
    have hne : st.pending ≠ [] := List.ne_nil_of_mem hmem
    have hemp : st.pending.isEmpty = false := by
      cases hp : st.pending with
      | nil => exact absurd hp hne
      | cons a l => rfl
    simp only [hemp, Bool.false_eq_true, if_false]
    set st1 : EngineState := { st with loops := st.loops + 1 } with hst1
    have hmem1 : f ∈ st1.pending := hmem
    have hnd1 : st1.pending.Nodup := hnd
    have hc1 : st1.crashed = false := hcrash
    -- decompose the stage snapshot around f
    obtain ⟨P, S, hsplit⟩ := List.append_of_mem hmem1
    have hndPS : (P ++ f :: S).Nodup := hsplit ▸ hnd1
    have hfP : f ∉ P := by
      have hdisj := (List.nodup_append.mp hndPS).2.2
      exact fun h => hdisj h (List.mem_cons_self f S)
    have hfS : f ∉ S := by
      have := (List.nodup_append.mp hndPS).2.1
      exact (List.nodup_cons.mp this).1
    have hstage : processStage mr ts (effOf st1.loops) (escOf st1.loops) st1
        = (P ++ f :: S).foldl
            (fun s n => if s.crashed then s
              else engineStep mr ts s n (effOf st1.loops n) (escOf st1.loops n))
            st1 := by
      unfold processStage
      rw [hsplit]
    -- the prefix P leaves f untouched and the run uncrashed
    have hPres := stageFold_preserve mr ts (effOf st1.loops) (escOf st1.loops)
      f P st1 hfP
    set stP := P.foldl
      (fun s n => if s.crashed then s
        else engineStep mr ts s n (effOf st1.loops n) (escOf st1.loops n)) st1
      with hstP
    have hcP : stP.crashed = false :=
      stageFold_crashed mr ts (effOf st1.loops) (escOf st1.loops)
        (fun n => hnocrash st1.loops n) P st1 hc1
    have hcPne : ¬ stP.crashed = true := by rw [hcP]; exact Bool.false_ne_true
    have hrP : lookupN stP.retries f = k := hPres.1.trans hr
    have haP : lookupN stP.attempts f = k := hPres.2.1.trans ha
    have hmemP : f ∈ stP.pending := hPres.2.2.2.1.mpr hmem1
    have hndP : stP.pending.Nodup := hPres.2.2.2.2 hnd1
    rcases Nat.lt_or_ge k mr with hklt | hkge
    · -- a failing attempt: counters go up by one, Pending unchanged
      have hstep := engineStep_self_fail mr ts stP f (effOf st1.loops f)
        (escOf st1.loops f) (by rw [hrP]; exact hklt)
        (hfail st1.loops).1 (hfail st1.loops).2
      set stF := engineStep mr ts stP f (effOf st1.loops f) (escOf st1.loops f)
        with hstF
      have hrF : lookupN stF.retries f = k + 1 := by rw [hstep.1, hrP]
      have haF : lookupN stF.attempts f = k + 1 := by rw [hstep.2.1, haP]
      have hmemF : f ∈ stF.pending := by rw [hstep.2.2.1]; exact hmemP
      have hndF : stF.pending.Nodup := by rw [hstep.2.2.1]; exact hndP
      have hcF : stF.crashed = false := hstep.2.2.2.trans hcP
      have hSres := stageFold_preserve mr ts (effOf st1.loops) (escOf st1.loops)
        f S stF hfS
      set st2 := S.foldl
        (fun s n => if s.crashed then s
          else engineStep mr ts s n (effOf st1.loops n) (escOf st1.loops n)) stF
        with hst2
      have hstage2 : processStage mr ts (effOf st1.loops) (escOf st1.loops) st1
          = st2 := by
        rw [hstage, List.foldl_append]
        simp only [List.foldl_cons]
        rw [if_neg hcPne]
      have hr2 : lookupN st2.retries f = k + 1 := hSres.1.trans hrF
      have ha2 : lookupN st2.attempts f = k + 1 := hSres.2.1.trans haF
      have hmem2 : f ∈ st2.pending := hSres.2.2.2.1.mpr hmemF
      have hnd2 : st2.pending.Nodup := hSres.2.2.2.2 hndF
      have hc2 : st2.crashed = false :=
        stageFold_crashed mr ts (effOf st1.loops) (escOf st1.loops)
          (fun n => hnocrash st1.loops n) S stF hcF
      have hemp2 : st2.pending.isEmpty = false := by
        cases hp : st2.pending with
        | nil => exact absurd (hp ▸ hmem2) (List.not_mem_nil f)
        | cons a l => rfl
      rw [hstage2]
      simp only [hc2, Bool.false_eq_true, if_false, hemp2]
      exact ih (k + 1) st2 hmem2 hnd2 hc2 hr2 ha2 hklt (by omega)
    · -- the pre-check fires: escalation to terminal failure
      have hkeq : k = mr := le_antisymm hk hkge
      have hstep := engineStep_self_escalate mr ts stP f (effOf st1.loops f)
        (escOf st1.loops f) (by rw [hrP, hkeq]) (hwrite st1.loops)
        (hnocrash st1.loops f)
      set stF := engineStep mr ts stP f (effOf st1.loops f) (escOf st1.loops f)
        with hstF
      have hrF : lookupN stF.retries f = mr := by rw [hstep.1, hrP, hkeq]
      have haF : lookupN stF.attempts f = mr := by rw [hstep.2.1, haP, hkeq]
      have hmemF : f ∉ stF.pending := by
        rw [hstep.2.2.1]
        exact not_mem_filter_self f _
      have hdoneF : stF.done.lookup f = some (errorDoc mr ts) := by
        rw [hstep.2.2.2.1]
        exact lookupD_cons_self f _ _
      have hcF : stF.crashed = false := hstep.2.2.2.2.2.2.2.trans hcP
      have hSres := stageFold_preserve mr ts (effOf st1.loops) (escOf st1.loops)
        f S stF hfS
      set st2 := S.foldl
        (fun s n => if s.crashed then s
          else engineStep mr ts s n (effOf st1.loops n) (escOf st1.loops n)) stF
        with hst2
      have hstage2 : processStage mr ts (effOf st1.loops) (escOf st1.loops) st1
          = st2 := by
        rw [hstage, List.foldl_append]
        simp only [List.foldl_cons]
        rw [if_neg hcPne]
      have hr2 : lookupN st2.retries f = mr := hSres.1.trans hrF
      have ha2 : lookupN st2.attempts f = mr := hSres.2.1.trans haF
      have hmem2 : f ∉ st2.pending := fun h => hmemF (hSres.2.2.2.1.mp h)
      have hdone2 : st2.done.lookup f = some (errorDoc mr ts) :=
        hSres.2.2.1.trans hdoneF
      have hc2 : st2.crashed = false :=
        stageFold_crashed mr ts (effOf st1.loops) (escOf st1.loops)
          (fun n => hnocrash st1.loops n) S stF hcF
      rw [hstage2]
      simp only [hc2, Bool.false_eq_true, if_false]
      by_cases hemp2 : st2.pending.isEmpty
      · simp only [hemp2, if_true]
        exact ⟨ha2, hr2, hmem2, hdone2⟩
      · simp only [hemp2, Bool.false_eq_true, if_false]
        have hrest := runLoop_preserve mr ts effOf escOf f fl st2 hmem2
        exact ⟨hrest.2.1.trans ha2, hrest.1.trans hr2, hrest.2.2.2,
          hrest.2.2.1.trans hdone2⟩

/-! ## Claim theorems -/

/-- Characterisation of the classifier's result: header first, then keyword
scores with ties to business. -/
lemma classify_eq (content : List Char) :
    (classify_task content).1 =
      match findHeader (pyLower content) with
      | some d => d
      | none =>
        if perScore content < bizScore content then Domain.business
        else if bizScore content < perScore content then Domain.personal
        else Domain.business := by
  cases hfh : findHeader (pyLower content) with
  | some d => simp only [classify_task, hfh]
  | none => simp only [classify_task, hfh, bizScore, perScore]

/-- C2: for every content string, `classify_task` returns the label named in
an explicit `domain: business|personal` header whenever one is present
(regardless of keyword scores); otherwise it returns business when
`biz_score > per_score`, personal when `per_score > biz_score`, and business
when the scores are equal — including the 0-0 case, so the empty string
classifies as business. -/
theorem C2_classifier_policy (content : List Char) :
    (∀ d, findHeader (pyLower content) = some d → (classify_task content).1 = d) ∧
    (findHeader (pyLower content) = none → perScore content < bizScore content →
      (classify_task content).1 = Domain.business) ∧
    (findHeader (pyLower content) = none → bizScore content < perScore content →
      (classify_task content).1 = Domain.personal) ∧
    (findHeader (pyLower content) = none → bizScore content = perScore content →
      (classify_task content).1 = Domain.business) ∧
    (classify_task []).1 = Domain.business := by
  refine ⟨?_, ?_, ?_, ?_, by decide⟩
  · intro d hd
    rw [classify_eq, hd]
  · intro hn hgt
    rw [classify_eq, hn]
    simp only [if_pos hgt]
  · intro hn hgt
    have h1 : ¬ perScore content < bizScore content := by omega
    rw [classify_eq, hn]
    simp only [if_neg h1, if_pos hgt]
  · intro hn heq
    have h1 : ¬ perScore content < bizScore content := by omega
    have h2 : ¬ bizScore content < perScore content := by omega
    rw [classify_eq, hn]
    simp only [if_neg h1, if_neg h2]

/-- Witness for C2 at concrete inputs: an explicit header wins over keyword
scores; 2 business keywords vs 1 personal keyword gives business; a personal
majority gives personal; a 0-0 tie (and the empty string) gives business. -/
theorem C2_classifier_policy_witness :
    (classify_task "Domain: personal\ninvoice meeting client".toList).1
        = Domain.personal ∧
    (classify_task "invoice meeting grocery".toList).1 = Domain.business ∧
    (classify_task "grocery gym".toList).1 = Domain.personal ∧
    (classify_task "nothing to see".toList).1 = Domain.business ∧
    (classify_task []).1 = Domain.business :=
  ⟨(C2_classifier_policy "Domain: personal\ninvoice meeting client".toList).1
      Domain.personal (by decide),
   (C2_classifier_policy "invoice meeting grocery".toList).2.1
      (by decide) (by decide),
   (C2_classifier_policy "grocery gym".toList).2.2.1 (by decide) (by decide),
   (C2_classifier_policy "nothing to see".toList).2.2.2.1
      (by decide) (by decide),
   (C2_classifier_policy []).2.2.2.2⟩

/-- C1 counterexample: with `MaxRetries = 1` and an always-failing file, the
file is attempted once and its counter exhausts, but because the
terminal-document write of the escalation fails (gold_agent.py:273 ignores
`write_task`'s `False`), no terminal failure document exists in `Done` even
though the file has been removed from `Pending` and counted failed — the
escalation to terminal failure claimed by C1 does not happen. -/
theorem C1_lost_terminal_counterexample :
    lookupN (runLoop 1 "t0".toList (fun _ _ => failEffect)
      (fun _ _ => ({ writeOk := false, unlinkRaises := false } : EscFlags)) 2
      (initState ["a.md"])).attempts "a.md" = 1 ∧
    (runLoop 1 "t0".toList (fun _ _ => failEffect)
      (fun _ _ => ({ writeOk := false, unlinkRaises := false } : EscFlags)) 2
      (initState ["a.md"])).pending = [] ∧
    (runLoop 1 "t0".toList (fun _ _ => failEffect)
      (fun _ _ => ({ writeOk := false, unlinkRaises := false } : EscFlags)) 2
      (initState ["a.md"])).done.lookup "a.md" = none ∧
    (runLoop 1 "t0".toList (fun _ _ => failEffect)
      (fun _ _ => ({ writeOk := false, unlinkRaises := false } : EscFlags)) 2
      (initState ["a.md"])).failed = 1 := by
  refine ⟨by decide, by decide, by decide, by decide⟩

/-- C1 amended: a file `f` in `Pending` whose `process_task` attempt fails in
place on every iteration is attempted exactly `MaxRetries` times, its retry
counter reaching `MaxRetries`, and is then escalated on the next iteration's
pre-check — the terminal failure document appearing in `Done` — without a
further attempt, provided the `MAX_LOOPS` fuel admits at least
`MaxRetries + 1` iterations, the file's own terminal-document write succeeds,
and no escalation unlink raises during the run (an uncaught raise aborts
it). -/
theorem C1_retry_bound (mr fuel : Nat) (ts : List Char)
    (effOf : Nat → String → TaskEffect) (escOf : Nat → String → EscFlags)
    (f : String) (pending0 : List String)
    (hmem : f ∈ pending0) (hnd : pending0.Nodup)
    (hfail : ∀ i, (effOf i f).ret = false ∧ (effOf i f).removedFromPending = false)
    (hwrite : ∀ i, (escOf i f).writeOk = true)
    (hnocrash : ∀ i n, (escOf i n).unlinkRaises = false)
    (hfuel : mr + 1 ≤ fuel) :
    lookupN (runLoop mr ts effOf escOf fuel (initState pending0)).attempts f
      = mr ∧
    lookupN (runLoop mr ts effOf escOf fuel (initState pending0)).retries f
      = mr ∧
    f ∉ (runLoop mr ts effOf escOf fuel (initState pending0)).pending ∧
    (runLoop mr ts effOf escOf fuel (initState pending0)).done.lookup f
      = some (errorDoc mr ts) :=
  retryBound_aux mr ts effOf escOf f hfail hwrite hnocrash fuel 0
    (initState pending0) hmem hnd rfl rfl rfl (Nat.zero_le mr) (by omega)

/-- Witness for C1, the spec's end-to-end scenario 4: `MaxRetries = 2`, a
single always-failing file among two pending files, fuel 3, all escalation
OS calls succeeding: exactly 2 attempts, retry counter 2, terminal failure
document in `Done`. -/
theorem C1_retry_bound_witness :
    lookupN (runLoop 2 "2026-01-01 00:00:00Z".toList (fun _ _ => failEffect)
      (fun _ _ => cleanEsc) 3
      (initState ["a.md", "b.md"])).attempts "a.md" = 2 ∧
    lookupN (runLoop 2 "2026-01-01 00:00:00Z".toList (fun _ _ => failEffect)
      (fun _ _ => cleanEsc) 3
      (initState ["a.md", "b.md"])).retries "a.md" = 2 ∧
    "a.md" ∉ (runLoop 2 "2026-01-01 00:00:00Z".toList (fun _ _ => failEffect)
      (fun _ _ => cleanEsc) 3
      (initState ["a.md", "b.md"])).pending ∧
    (runLoop 2 "2026-01-01 00:00:00Z".toList (fun _ _ => failEffect)
      (fun _ _ => cleanEsc) 3
      (initState ["a.md", "b.md"])).done.lookup "a.md"
      = some (errorDoc 2 "2026-01-01 00:00:00Z".toList) :=
  C1_retry_bound 2 3 "2026-01-01 00:00:00Z".toList (fun _ _ => failEffect)
    (fun _ _ => cleanEsc) "a.md" ["a.md", "b.md"] (by decide) (by decide)
    (fun _ => ⟨rfl, rfl⟩) (fun _ => rfl) (fun _ _ => rfl) (by omega)

/-- C6 counterexample: in the escalation branch the loop ignores
`write_task`'s return value, so when the terminal-document write fails the
file is still unlinked from `Pending` and counted failed with *no* terminal
failure document in `Done` — the claimed "writes a terminal failure document
for that filename into Done" is not guaranteed by the program. -/
theorem C6_lost_terminal_counterexample :
    (engineStep 3 "t0".toList
      { pending := ["x.md"], done := [], retries := [("x.md", 3)],
        processed := 0, failed := 0, loops := 1, attempts := [],
        audits := [], crashed := false } "x.md" failEffect
      { writeOk := false, unlinkRaises := false }).done.lookup "x.md"
      = none ∧
    (engineStep 3 "t0".toList
      { pending := ["x.md"], done := [], retries := [("x.md", 3)],
        processed := 0, failed := 0, loops := 1, attempts := [],
        audits := [], crashed := false } "x.md" failEffect
      { writeOk := false, unlinkRaises := false }).pending = [] ∧
    (engineStep 3 "t0".toList
      { pending := ["x.md"], done := [], retries := [("x.md", 3)],
        processed := 0, failed := 0, loops := 1, attempts := [],
        audits := [], crashed := false } "x.md" failEffect
      { writeOk := false, unlinkRaises := false }).failed = 1 := by
  refine ⟨by decide, by decide, by decide⟩

/-- C6 amended: when a file's retry counter has reached `MaxRetries` at the
start of its processing step, and the escalation's own OS calls succeed (the
terminal-document write and the source unlink), the engine writes the
terminal failure document for it into `Done`, removes the source from
`Pending`, increments the run's failed-count, emits one non-success audit
entry, does not invoke `process_task`, and changes nothing else (processed
count, retry counters, attempt counts, loop counter and crash flag are all
untouched).  When the write fails the document never reaches `Done` though
the file is still dropped and counted; when the unlink raises the run
aborts. -/
theorem C6_escalation_effects (mr : Nat) (ts : List Char) (st : EngineState)
    (name : String) (eff : TaskEffect) (esc : EscFlags)
    (h : mr ≤ lookupN st.retries name)
    (hw : esc.writeOk = true) (hu : esc.unlinkRaises = false) :
    (engineStep mr ts st name eff esc).done
      = (name, errorDoc mr ts) :: st.done ∧
    (engineStep mr ts st name eff esc).pending
      = st.pending.filter (fun n => n ≠ name) ∧
    (engineStep mr ts st name eff esc).failed = st.failed + 1 ∧
    (engineStep mr ts st name eff esc).audits
      = ⟨"gold_agent", "max_retries_reached",
          [("retries", toString (lookupN st.retries name))], false⟩
        :: st.audits ∧
    (engineStep mr ts st name eff esc).attempts = st.attempts ∧
    (engineStep mr ts st name eff esc).retries = st.retries ∧
    (engineStep mr ts st name eff esc).processed = st.processed ∧
    (engineStep mr ts st name eff esc).loops = st.loops ∧
    (engineStep mr ts st name eff esc).crashed = st.crashed := by
  have h1 := engineStep_self_escalate mr ts st name eff esc h hw hu
  have h2 := engineStep_escalate_fields mr ts st name eff esc h
  exact ⟨h1.2.2.2.1, h1.2.2.1, h1.2.2.2.2.1, h1.2.2.2.2.2.2.1, h1.2.1, h1.1,
    h1.2.2.2.2.2.1, h2.2.2.2.2.2.2.2.1, h1.2.2.2.2.2.2.2⟩

/-- Witness for C6 at a concrete state: a file with retry counter 3 under
`MaxRetries = 3` is escalated without an attempt when the escalation's OS
calls succeed. -/
theorem C6_escalation_effects_witness :
    (engineStep 3 "t0".toList
        { pending := ["x.md", "y.md"], done := [], retries := [("x.md", 3)],
          processed := 5, failed := 0, loops := 4,
          attempts := [("x.md", 3)], audits := [],
          crashed := false } "x.md" failEffect cleanEsc).done
      = [("x.md", errorDoc 3 "t0".toList)] ∧
    (engineStep 3 "t0".toList
        { pending := ["x.md", "y.md"], done := [], retries := [("x.md", 3)],
          processed := 5, failed := 0, loops := 4,
          attempts := [("x.md", 3)], audits := [],
          crashed := false } "x.md" failEffect cleanEsc).pending
      = ["y.md"] ∧
    (engineStep 3 "t0".toList
        { pending := ["x.md", "y.md"], done := [], retries := [("x.md", 3)],
          processed := 5, failed := 0, loops := 4,
          attempts := [("x.md", 3)], audits := [],
          crashed := false } "x.md" failEffect cleanEsc).failed
      = 1 ∧
    (engineStep 3 "t0".toList
        { pending := ["x.md", "y.md"], done := [], retries := [("x.md", 3)],
          processed := 5, failed := 0, loops := 4,
          attempts := [("x.md", 3)], audits := [],
          crashed := false } "x.md" failEffect cleanEsc).attempts
      = [("x.md", 3)] := by
  have h := C6_escalation_effects 3 "t0".toList
    { pending := ["x.md", "y.md"], done := [], retries := [("x.md", 3)],
      processed := 5, failed := 0, loops := 4,
      attempts := [("x.md", 3)], audits := [], crashed := false }
    "x.md" failEffect cleanEsc (by decide) rfl rfl
  refine ⟨by rw [h.1], ?_, by rw [h.2.2.1], by rw [h.2.2.2.2.1]⟩
  rw [h.2.1]
  decide

/-- A single engine step can only keep a retry counter or raise it — never
lower or clear it, whatever the escalation OS outcomes. -/
lemma engineStep_retries_mono (mr : Nat) (ts : List Char) (st : EngineState)
    (g : String) (e : TaskEffect) (esc : EscFlags) (n : String) :
    lookupN st.retries n ≤ lookupN (engineStep mr ts st g e esc).retries n := by
  by_cases h1 : mr ≤ lookupN st.retries g
  · have hr := (engineStep_escalate_fields mr ts st g e esc h1).1
    simp [hr]
  · unfold engineStep applyEffect
    simp only [h1, if_false]
    by_cases h2 : e.ret
    · simp [h2]
    · simp only [h2, Bool.false_eq_true, if_false]
      by_cases h3 : n = g
      · subst h3
        rw [lookupN_cons_self]
        omega
      · rw [lookupN_cons_ne _ _ _ _ h3]

/-- Retry counters are monotone along a process stage. -/
lemma stageFold_retries_mono (mr : Nat) (ts : List Char)
    (effOf : String → TaskEffect) (escOf : String → EscFlags) (n : String) :
    ∀ (L : List String) (st : EngineState),
      lookupN st.retries n ≤
        lookupN ((L.foldl (fun s m => if s.crashed then s
          else engineStep mr ts s m (effOf m) (escOf m)) st)).retries n := by
  intro L
  induction L with
  | nil => intro st; exact le_rfl
  | cons g L ih =>
    intro st
    simp only [List.foldl_cons]
    by_cases hc : st.crashed
    · rw [if_pos hc]
      exact ih st
    · rw [if_neg hc]
      exact le_trans (engineStep_retries_mono mr ts st g (effOf g) (escOf g) n)
        (ih _)

/-- Retry counters are monotone along a whole run: they are never reset or
cleared mid-run, whether or not the run ends in a crash. -/
lemma runLoop_retries_mono (mr : Nat) (ts : List Char)
    (effOf : Nat → String → TaskEffect) (escOf : Nat → String → EscFlags)
    (n : String) :
    ∀ (fuel : Nat) (st : EngineState),
      lookupN st.retries n
        ≤ lookupN (runLoop mr ts effOf escOf fuel st).retries n := by
  intro fuel
  induction fuel with
  | zero => intro st; exact le_rfl
  | succ fl ih =>
    intro st
    unfold runLoop
    by_cases hemp : st.pending.isEmpty
    · simp [hemp]
    · simp only [hemp, Bool.false_eq_true, if_false]
      set st1 : EngineState := { st with loops := st.loops + 1 } with hst1
      have hstage : lookupN st1.retries n ≤
          lookupN (processStage mr ts (effOf st1.loops) (escOf st1.loops)
            st1).retries n :=
        stageFold_retries_mono mr ts (effOf st1.loops) (escOf st1.loops) n
          st1.pending st1
      by_cases hcr : (processStage mr ts (effOf st1.loops) (escOf st1.loops)
          st1).crashed
      · simp only [hcr, if_true]
        exact hstage
      · simp only [hcr, Bool.false_eq_true, if_false]
        by_cases hemp2 : (processStage mr ts (effOf st1.loops) (escOf st1.loops)
            st1).pending.isEmpty
        · simp only [hemp2, if_true]
          exact hstage
        · simp only [hemp2, Bool.false_eq_true, if_false]
          exact le_trans hstage
            (ih (processStage mr ts (effOf st1.loops) (escOf st1.loops) st1))

/-- C7: throughout a run, a file's retry counter increments by exactly one on
each failed `process_task` attempt and is never modified otherwise — an
escalated file's counter is untouched whatever the escalation OS outcomes, a
successful (or skipped-empty, which returns success) attempt leaves every
counter unchanged, a failed attempt raises exactly the attempted file's
counter by one, and no counter ever decreases at any point of a run. -/
theorem C7_retry_counter_discipline (mr : Nat) (ts : List Char) :
    (∀ (st : EngineState) (name : String) (eff : TaskEffect) (esc : EscFlags),
      mr ≤ lookupN st.retries name →
      (engineStep mr ts st name eff esc).retries = st.retries) ∧
    (∀ (st : EngineState) (name : String) (eff : TaskEffect) (esc : EscFlags),
      lookupN st.retries name < mr → eff.ret = true →
      (engineStep mr ts st name eff esc).retries = st.retries) ∧
    (∀ (st : EngineState) (name : String) (eff : TaskEffect) (esc : EscFlags),
      lookupN st.retries name < mr → eff.ret = false →
      lookupN (engineStep mr ts st name eff esc).retries name
        = lookupN st.retries name + 1 ∧
      ∀ n, n ≠ name →
        lookupN (engineStep mr ts st name eff esc).retries n
          = lookupN st.retries n) ∧
    (∀ (effOf : Nat → String → TaskEffect) (escOf : Nat → String → EscFlags)
      (fuel : Nat) (st : EngineState) (n : String),
      lookupN st.retries n
        ≤ lookupN (runLoop mr ts effOf escOf fuel st).retries n) := by
  refine ⟨?_, ?_, ?_, fun effOf escOf fuel st n =>
    runLoop_retries_mono mr ts effOf escOf n fuel st⟩
  · intro st name eff esc h
    exact (engineStep_escalate_fields mr ts st name eff esc h).1
  · intro st name eff esc h hret
    have h1 : ¬ mr ≤ lookupN st.retries name := by omega
    unfold engineStep applyEffect
    simp [h1, hret]
  · intro st name eff esc h hret
    have h1 : ¬ mr ≤ lookupN st.retries name := by omega
    unfold engineStep applyEffect
    simp only [h1, if_false, hret, Bool.false_eq_true]
    exact ⟨lookupN_cons_self _ _ _, fun n hn => lookupN_cons_ne _ _ _ _ hn⟩

/-- Witness for C7 at a concrete state: a failed attempt under budget bumps
exactly the file's own counter; monotonicity at a concrete short run. -/
theorem C7_retry_counter_discipline_witness :
    lookupN (engineStep 3 "t0".toList
        { pending := ["x.md", "y.md"], done := [], retries := [("x.md", 1)],
          processed := 0, failed := 0, loops := 1, attempts := [],
          audits := [], crashed := false } "x.md" failEffect
        cleanEsc).retries "x.md" = 2 ∧
    lookupN (engineStep 3 "t0".toList
        { pending := ["x.md", "y.md"], done := [], retries := [("x.md", 1)],
          processed := 0, failed := 0, loops := 1, attempts := [],
          audits := [], crashed := false } "x.md" failEffect
        cleanEsc).retries "y.md" = 0 ∧
    lookupN ({ pending := ["x.md"], done := [], retries := [("x.md", 1)],
                 processed := 0, failed := 0, loops := 0, attempts := [],
                 audits := [], crashed := false } : EngineState).retries "x.md"
      ≤ lookupN (runLoop 3 "t0".toList (fun _ _ => failEffect)
        (fun _ _ => cleanEsc) 5
        { pending := ["x.md"], done := [], retries := [("x.md", 1)],
          processed := 0, failed := 0, loops := 0, attempts := [],
          audits := [], crashed := false }).retries "x.md" := by
  have h := C7_retry_counter_discipline 3 "t0".toList
  have h3 := h.2.2.1
    { pending := ["x.md", "y.md"], done := [], retries := [("x.md", 1)],
      processed := 0, failed := 0, loops := 1, attempts := [],
      audits := [], crashed := false } "x.md" failEffect cleanEsc
    (by decide) rfl
  refine ⟨?_, ?_, h.2.2.2 (fun _ _ => failEffect) (fun _ _ => cleanEsc) 5 _
    "x.md"⟩
  · rw [h3.1]
    decide
  · rw [h3.2 "y.md" (by decide)]
    decide

/-- C4 counterexample: `list_tasks` on an absent folder returns early with an
empty result and emits zero audit entries, contradicting the claim that it
still produces its audit entry. -/
theorem C4_absent_folder_counterexample :
    ((list_tasks none).2).length = 0 ∧ (list_tasks none).1 = [] :=
  ⟨rfl, rfl⟩

/-- C4 amended: every File Store, Classifier and Summarizer call produces
exactly one audit entry — including failed calls — with the single exception
of `list_tasks` on an absent folder, which returns an empty listing without
emitting any audit entry. -/
theorem C4_audit_completeness_amended :
    (∀ names, ((list_tasks (some names)).2).length = 1) ∧
    ((list_tasks none).2).length = 0 ∧
    (∀ raw, ((read_task raw).2).length = 1) ∧
    (∀ ok, ((write_task ok).2).length = 1) ∧
    (∀ srcExists moveOk, ((move_task srcExists moveOk).2).length = 1) ∧
    (∀ ok, ((delete_task ok).2).length = 1) ∧
    (∀ content, ((classify_task content).2).length = 1) ∧
    (∀ configured call, ((openai_summarize configured call).audits).length = 1) := by
  refine ⟨fun names => rfl, rfl, ?_, ?_, ?_, ?_, ?_, ?_⟩
  · intro raw
    cases raw <;> rfl
  · intro ok
    cases ok <;> rfl
  · intro srcExists moveOk
    cases srcExists <;> cases moveOk <;> rfl
  · intro ok
    cases ok <;> rfl
  · intro content
    cases hfh : findHeader (pyLower content) <;> simp [classify_task, hfh]
  · intro configured call
    cases configured with
    | false => rfl
    | true =>
      cases call with
      | failure e => rfl
      | success content =>
        by_cases h : (pyStrip content).isEmpty <;> simp [openai_summarize, h]

/-- C5: the summarizer returns a pair whose status realises exactly the four
spec tags `{fallback, ok, empty, error}` (as the literal strings `"fallback"`,
`"openai_ok"`, `"openai_empty"`, `"openai_error"`): `fallback` whenever no
credential/library is configured — decided before any external call, so the
result is then independent of the call outcome — `ok` on a successful
non-empty response, `empty` on a successful empty/whitespace-only response,
and `error` on any call-level failure; every branch returns normally (the
model is a total function of the call outcome, mirroring the source's
catch-all `except`). -/
theorem C5_summarizer_contract :
    (∀ call call', openai_summarize false call = openai_summarize false call') ∧
    (∀ call, (openai_summarize false call).status = "fallback") ∧
    (∀ content, pyStrip content = [] →
      (openai_summarize true (.success content)).status = "openai_empty") ∧
    (∀ content, pyStrip content ≠ [] →
      (openai_summarize true (.success content)).status = "openai_ok") ∧
    (∀ err, (openai_summarize true (.failure err)).status = "openai_error") ∧
    (∀ (configured : Bool) (call : CallResult),
      ∃ t : StatusTag, specTagOf (openai_summarize configured call).status = some t) := by
  refine ⟨fun call call' => rfl, fun call => rfl, ?_, ?_, fun err => rfl, ?_⟩
  · intro content h
    have h' : (pyStrip content).isEmpty = true := by simp [h]
    simp [openai_summarize, h']
  · intro content h
    have h' : (pyStrip content).isEmpty = false := by
      simp [List.isEmpty_iff]
      exact h
    simp [openai_summarize, h']
  · intro configured call
    cases configured with
    | false => exact ⟨.fallback, rfl⟩
    | true =>
      cases call with
      | failure e => exact ⟨.error, rfl⟩
      | success content =>
        by_cases h : (pyStrip content).isEmpty
        · refine ⟨.empty, ?_⟩
          simp only [openai_summarize, h, Bool.not_true, if_true, if_false]
          decide
        · refine ⟨.ok, ?_⟩
          have h' : (pyStrip content).isEmpty = false := by
            cases hh : (pyStrip content).isEmpty
            · rfl
            · exact absurd hh h
          simp only [openai_summarize, h', Bool.not_true, if_true, if_false,
            Bool.false_eq_true]
          decide

/-- Witness for C5 at concrete inputs: whitespace-only response tags empty, a
real response tags ok, and an unconfigured capability tags fallback whatever
the call would have returned. -/
theorem C5_summarizer_contract_witness :
    (openai_summarize true (.success "  \t ".toList)).status = "openai_empty" ∧
    (openai_summarize true (.success "A summary.".toList)).status = "openai_ok" ∧
    (openai_summarize false (.failure "boom".toList)).status = "fallback" :=
  ⟨(C5_summarizer_contract).2.2.1 "  \t ".toList (by decide),
   (C5_summarizer_contract).2.2.2.1 "A summary.".toList (by decide),
   (C5_summarizer_contract).2.1 (.failure "boom".toList)⟩

/-- Directory chosen for a given domain label (`Business/` or `Personal/`). -/
def domainFolderOf : Domain → DomainFolder
  | .business => .businessDir
  | .personal => .personalDir

/-- Route target agrees with the classifier's label. -/
lemma route_task_eq (c : List Char) :
    (route_task c).1 = domainFolderOf (classify_task c).1 := by
  unfold route_task
  cases h : (classify_task c).1 <;> simp [h, domainFolderOf]

/-- C9: classification is deterministic — equal content always yields equal
labels — and consequently the domain recorded in the `Done` output document
(ghost field `classified`) and the folder chosen by `route_task` for the
archival copy (ghost field `routeDomain`) always agree, even though
`process_task` classifies the same content twice. -/
theorem C9_classification_agreement :
    (∀ c₁ c₂ : List Char, c₁ = c₂ → (classify_task c₁).1 = (classify_task c₂).1) ∧
    (∀ c : List Char, (route_task c).1 = domainFolderOf (classify_task c).1) ∧
    (∀ (raw : Option (List Char)) (cfg : Bool) (call : CallResult)
      (ts model : List Char) (fl : Flags) (d : Domain) (fd : DomainFolder),
      (process_task raw cfg call ts model fl).classified = some d →
      (process_task raw cfg call ts model fl).routeDomain = some fd →
      fd = domainFolderOf d) := by
  refine ⟨fun c₁ c₂ h => h ▸ rfl, route_task_eq, ?_⟩
  intro raw cfg call ts model fl d fd
  unfold process_task
  by_cases h1 : ((read_task (if fl.readOk then raw else none)).1).isEmpty
  · simp [h1]
  · simp only [h1, Bool.false_eq_true, if_false]
    by_cases h2 : fl.earlyRaise
    · simp [h2]
    · simp only [h2, Bool.false_eq_true, if_false]
      by_cases h3 : fl.unlinkRaises
      · simp only [h3, if_true]
        intro hcls hroute
        have hd : (classify_task ((read_task
            (if fl.readOk then raw else none)).1)).1 = d := by
          simpa using hcls
        have hf : (route_task ((read_task
            (if fl.readOk then raw else none)).1)).1 = fd := by
          simpa using hroute
        rw [← hd, ← hf]
        exact route_task_eq _
      · simp only [h3, Bool.false_eq_true, if_false]
        by_cases h4 : fl.lateRaise
        · simp only [h4, if_true]
          intro hcls hroute
          have hd : (classify_task ((read_task
              (if fl.readOk then raw else none)).1)).1 = d := by
            simpa using hcls
          have hf : (route_task ((read_task
              (if fl.readOk then raw else none)).1)).1 = fd := by
            simpa using hroute
          rw [← hd, ← hf]
          exact route_task_eq _
        · simp only [h4, Bool.false_eq_true, if_false]
          intro hcls hroute
          have hd : (classify_task ((read_task
              (if fl.readOk then raw else none)).1)).1 = d := by
            simpa using hcls
          have hf : (route_task ((read_task
              (if fl.readOk then raw else none)).1)).1 = fd := by
            simpa using hroute
          rw [← hd, ← hf]
          exact route_task_eq _

/-- Witness for C9 at a concrete input: a business task's output document
domain and archival folder agree. -/
theorem C9_classification_agreement_witness :
    DomainFolder.businessDir = domainFolderOf Domain.business ∧
    (route_task "invoice meeting".toList).1
      = domainFolderOf (classify_task "invoice meeting".toList).1 :=
  ⟨C9_classification_agreement.2.2 (some "invoice meeting".toList) false
      (.failure []) "t".toList "m".toList allOkFlags Domain.business
      DomainFolder.businessDir (by decide) (by decide),
   C9_classification_agreement.2.1 "invoice meeting".toList⟩

/-- Stripping a string that consists only of whitespace yields the empty
string. -/
lemma pyStrip_all_space (raw : List Char) (hws : ∀ c ∈ raw, isPySpace c = true) :
    pyStrip raw = [] := by
  have h1 : raw.dropWhile isPySpace = [] := List.dropWhile_eq_nil_iff.mpr hws
  simp [pyStrip, h1]

/-- C10: a file whose content is only whitespace is treated exactly like an
empty file: `read_task` strips it to the empty string, `process_task` then
takes the skip branch — returning success, moving the raw file to `Done`
unmodified, performing no classification or summarization — and the engine
leaves every retry counter untouched when it applies that effect. -/
theorem C10_whitespace_like_empty (raw : List Char) (configured : Bool)
    (call : CallResult) (ts model : List Char)
    (_hne : raw ≠ []) (hws : ∀ c ∈ raw, isPySpace c = true) :
    pyStrip raw = [] ∧
    (read_task (some raw)).1 = [] ∧
    (process_task (some raw) configured call ts model allOkFlags).ret = true ∧
    (process_task (some raw) configured call ts model allOkFlags).doneWrite
      = some raw ∧
    (process_task (some raw) configured call ts model allOkFlags).classified
      = none ∧
    (process_task (some raw) configured call ts model allOkFlags).summarized
      = false ∧
    (∀ (mr : Nat) (ts' : List Char) (st : EngineState) (name n : String)
      (esc : EscFlags),
      lookupN (engineStep mr ts' st name
        (process_task (some raw) configured call ts model allOkFlags)
        esc).retries n
        = lookupN st.retries n) := by
  have hstrip : pyStrip raw = [] := pyStrip_all_space raw hws
  have hread : (read_task (some raw)).1 = [] := by simp [read_task, hstrip]
  have heff : ∀ goal : TaskEffect → Prop,
      goal { ret := true, doneWrite := some raw, archive := none,
             removedFromPending := true, classified := none,
             routeDomain := none, summarized := false,
             audits := (read_task (some raw)).2
               ++ [⟨"gold_agent", "skip_empty_task", [], true⟩]
               ++ (move_task true true).2 } →
      goal (process_task (some raw) configured call ts model allOkFlags) := by
    intro goal hg
    have : process_task (some raw) configured call ts model allOkFlags
        = { ret := true, doneWrite := some raw, archive := none,
            removedFromPending := true, classified := none,
            routeDomain := none, summarized := false,
            audits := (read_task (some raw)).2
              ++ [⟨"gold_agent", "skip_empty_task", [], true⟩]
              ++ (move_task true true).2 } := by
      unfold process_task
      simp [allOkFlags, hread]
    rw [this]
    exact hg
  have hret : (process_task (some raw) configured call ts model allOkFlags).ret
      = true := heff (fun e => e.ret = true) rfl
  refine ⟨hstrip, hread, hret,
    heff (fun e => e.doneWrite = some raw) rfl,
    heff (fun e => e.classified = none) rfl,
    heff (fun e => e.summarized = false) rfl, ?_⟩
  intro mr ts' st name n esc
  by_cases h0 : mr ≤ lookupN st.retries name
  · rw [(engineStep_escalate_fields mr ts' st name _ esc h0).1]
  · unfold engineStep applyEffect
    simp [h0, hret]

/-- Witness for C10 at the concrete whitespace-only content " \n\t ". -/
theorem C10_whitespace_like_empty_witness :
    pyStrip " \n\t ".toList = [] ∧
    (read_task (some " \n\t ".toList)).1 = [] ∧
    (process_task (some " \n\t ".toList) false (.failure [])
      "t".toList "m".toList allOkFlags).ret = true ∧
    (process_task (some " \n\t ".toList) false (.failure [])
      "t".toList "m".toList allOkFlags).doneWrite = some " \n\t ".toList ∧
    (process_task (some " \n\t ".toList) false (.failure [])
      "t".toList "m".toList allOkFlags).classified = none ∧
    (process_task (some " \n\t ".toList) false (.failure [])
      "t".toList "m".toList allOkFlags).summarized = false ∧
    (∀ (mr : Nat) (ts' : List Char) (st : EngineState) (name n : String)
      (esc : EscFlags),
      lookupN (engineStep mr ts' st name
        (process_task (some " \n\t ".toList) false (.failure [])
          "t".toList "m".toList allOkFlags) esc).retries n
        = lookupN st.retries n) :=
  C10_whitespace_like_empty " \n\t ".toList false (.failure [])
    "t".toList "m".toList (by decide) (by decide)

/-- C3 counterexample: when the `Done` write fails (its ignored return value
is `False`) but the source unlink succeeds, the file is removed from
`Pending` with no `Done` document existing — it is silently dropped, refuting
the claim's "even when an individual file-store write fails" clause. -/
theorem C3_dropped_file_counterexample :
    "f.md" ∉ (engineStep 3 "t0".toList (initState ["f.md"]) "f.md"
      (process_task (some "invoice due".toList) false (.failure [])
        "t0".toList "m".toList
        { readOk := true, earlyRaise := false, moveOk := true,
          writeDoneOk := false, writeDomainOk := true,
          unlinkRaises := false, lateRaise := false }) cleanEsc).pending ∧
    (engineStep 3 "t0".toList (initState ["f.md"]) "f.md"
      (process_task (some "invoice due".toList) false (.failure [])
        "t0".toList "m".toList
        { readOk := true, earlyRaise := false, moveOk := true,
          writeDoneOk := false, writeDomainOk := true,
          unlinkRaises := false, lateRaise := false }) cleanEsc).done.lookup
      "f.md" = none := by
  refine ⟨?_, by decide⟩
  decide

/-- Under successful `Done` writes, skip-moves and source unlinks, the effect
of one `process_task` call places content in `Done` exactly when it removes
the source from `Pending`. -/
lemma processTask_done_iff_removed (orig : List Char) (cfg : Bool)
    (call : CallResult) (ts model : List Char) (fl : Flags)
    (hwd : fl.writeDoneOk = true) (hul : fl.unlinkRaises = false)
    (hmv : fl.moveOk = true) :
    (process_task (some orig) cfg call ts model fl).doneWrite.isSome
      = (process_task (some orig) cfg call ts model fl).removedFromPending := by
  unfold process_task
  by_cases h1 : ((read_task (if fl.readOk then some orig else none)).1).isEmpty
  · simp [h1, hmv]
  · simp only [h1, Bool.false_eq_true, if_false]
    by_cases h2 : fl.earlyRaise
    · simp [h2]
    · simp only [h2, Bool.false_eq_true, if_false]
      by_cases h4 : fl.lateRaise
      · simp [hul, h4, hwd]
      · simp [hul, h4, hwd]

/-- C3 amended: provided the individual file-store operations involved
succeed (the `Done` write, the skip-branch move and the source unlink), every
file of the stage snapshot ends the step in exactly one state: it has a
`Done` document exactly when it is no longer in `Pending` — it is neither
dropped nor duplicated.  (When the `Done` write fails the file can be
silently dropped, and when the unlink fails a `Done` document coexists with
the still-pending source.) -/
theorem C3_state_exclusivity (mr : Nat) (ts : List Char) (st : EngineState)
    (name : String) (orig : List Char) (cfg : Bool) (call : CallResult)
    (ts' model : List Char) (fl : Flags) (esc : EscFlags)
    (hmem : name ∈ st.pending) (hdone : st.done.lookup name = none)
    (hwd : fl.writeDoneOk = true) (hul : fl.unlinkRaises = false)
    (hmv : fl.moveOk = true)
    (hew : esc.writeOk = true) (heu : esc.unlinkRaises = false) :
    ((engineStep mr ts st name
        (process_task (some orig) cfg call ts' model fl)
        esc).done.lookup name).isSome
      = true
    ↔ name ∉ (engineStep mr ts st name
        (process_task (some orig) cfg call ts' model fl) esc).pending := by
  by_cases h0 : mr ≤ lookupN st.retries name
  · have h := engineStep_self_escalate mr ts st name
      (process_task (some orig) cfg call ts' model fl) esc h0 hew heu
    rw [h.2.2.2.1, h.2.2.1]
    constructor
    · intro _
      exact not_mem_filter_self name st.pending
    · intro _
      rw [lookupD_cons_self]
      rfl
  · have hio := processTask_done_iff_removed orig cfg call ts' model fl hwd hul hmv
    unfold engineStep applyEffect
    simp only [h0, if_false]
    by_cases hr : (process_task (some orig) cfg call ts' model fl).ret
    · simp only [hr, if_true]
      cases hdw : (process_task (some orig) cfg call ts' model fl).doneWrite with
      | some d =>
        have hrm : (process_task (some orig) cfg call ts' model fl).removedFromPending
            = true := by rw [← hio, hdw]; rfl
        simp [hdw, hrm, not_mem_filter_self]
      | none =>
        have hrm : (process_task (some orig) cfg call ts' model fl).removedFromPending
            = false := by rw [← hio, hdw]; rfl
        simp [hdw, hrm, hdone, hmem]
    · simp only [hr, Bool.false_eq_true, if_false]
      cases hdw : (process_task (some orig) cfg call ts' model fl).doneWrite with
      | some d =>
        have hrm : (process_task (some orig) cfg call ts' model fl).removedFromPending
            = true := by rw [← hio, hdw]; rfl
        simp [hdw, hrm, not_mem_filter_self]
      | none =>
        have hrm : (process_task (some orig) cfg call ts' model fl).removedFromPending
            = false := by rw [← hio, hdw]; rfl
        simp [hdw, hrm, hdone, hmem]

/-- Witness for C3 at a concrete state: with all file-store operations
succeeding, the processed file ends in exactly one state. -/
theorem C3_state_exclusivity_witness :
    ((engineStep 3 "t0".toList (initState ["f.md"]) "f.md"
        (process_task (some "invoice due".toList) false (.failure [])
          "t0".toList "m".toList allOkFlags)
        cleanEsc).done.lookup "f.md").isSome = true
    ↔ "f.md" ∉ (engineStep 3 "t0".toList (initState ["f.md"]) "f.md"
        (process_task (some "invoice due".toList) false (.failure [])
          "t0".toList "m".toList allOkFlags) cleanEsc).pending :=
  C3_state_exclusivity 3 "t0".toList (initState ["f.md"]) "f.md"
    "invoice due".toList false (.failure []) "t0".toList "m".toList allOkFlags
    cleanEsc (by decide) rfl rfl rfl rfl rfl rfl

/-- The composed output document determines the embedded `Processed`
timestamp: two documents built from the same inputs but timestamps of equal
length are equal only when the timestamps are. -/
lemma outputDoc_ts_inj (d : Domain) (ts₁ ts₂ model status orig summ : List Char)
    (hlen : ts₁.length = ts₂.length)
    (h : outputDoc d ts₁ model status orig summ
        = outputDoc d ts₂ model status orig summ) : ts₁ = ts₂ := by
  unfold outputDoc at h
  simp only [List.append_assoc] at h
  have h1 := List.append_cancel_left h
  have h2 := List.append_cancel_left h1
  have h3 := List.append_cancel_left h2
  exact List.append_inj_left h3 hlen

/-- For a readable non-empty source with a successful `Done` write and no
exception before it, `process_task` writes exactly the composed output
document to `Done`. -/
lemma processTask_doneWrite (orig : List Char) (cfg : Bool) (call : CallResult)
    (ts model : List Char) (fl : Flags)
    (hr : fl.readOk = true) (he : fl.earlyRaise = false)
    (hw : fl.writeDoneOk = true) (hnem : pyStrip orig ≠ []) :
    (process_task (some orig) cfg call ts model fl).doneWrite
      = some (outputDoc (classify_task (pyStrip orig)).1 ts model
          (openai_summarize cfg call).status.toList (pyStrip orig)
          (openai_summarize cfg call).text) := by
  have hread : (read_task (some orig)).1 = pyStrip orig := by simp [read_task]
  have hie : ((read_task (some orig)).1).isEmpty = false := by
    rw [hread]
    cases hp : pyStrip orig with
    | nil => exact absurd hp hnem
    | cons a l => rfl
  unfold process_task
  simp only [hr, if_true, hie, Bool.false_eq_true, if_false, he, hw]
  by_cases h4 : fl.unlinkRaises <;> by_cases h5 : fl.lateRaise <;>
    simp [h4, h5, hread]

/-- C8 counterexample: re-running `process_task` on a file whose `Done` write
succeeded but whose source deletion raised (simulated crash) produces a
*different* `Done` document when the clock has advanced by one second,
because the output embeds the `Processed` timestamp. -/
theorem C8_reprocess_counterexample :
    (process_task (some "invoice due".toList) false (.failure [])
        "2026-01-01 00:00:01Z".toList "m".toList allOkFlags).doneWrite
      ≠ (process_task (some "invoice due".toList) false (.failure [])
        "2026-01-01 00:00:00Z".toList "m".toList
        { allOkFlags with unlinkRaises := true }).doneWrite := by
  decide

/-- C8 amended: re-running `process_task` after the simulated crash (first
run: `Done` write succeeded, source unlink raised) produces a `Done` document
equal to the first run's if and only if the second run's `utc_ts()` value
coincides with the first's — the rewrite is idempotent up to the embedded
second-granularity `Processed` timestamp, the rest of the content being
reproduced exactly. -/
theorem C8_idempotent_up_to_timestamp (orig : List Char) (cfg : Bool)
    (call : CallResult) (ts₁ ts₂ model : List Char)
    (hnem : pyStrip orig ≠ []) (hlen : ts₁.length = ts₂.length) :
    ((process_task (some orig) cfg call ts₂ model allOkFlags).doneWrite
      = (process_task (some orig) cfg call ts₁ model
          { allOkFlags with unlinkRaises := true }).doneWrite) ↔ ts₂ = ts₁ := by
  rw [processTask_doneWrite orig cfg call ts₂ model allOkFlags rfl rfl rfl hnem,
      processTask_doneWrite orig cfg call ts₁ model
        { allOkFlags with unlinkRaises := true } rfl rfl rfl hnem]
  constructor
  · intro h
    exact outputDoc_ts_inj _ ts₂ ts₁ _ _ _ _ hlen.symm (Option.some.inj h)
  · intro h
    rw [h]

/-- Witness for C8 amended: with an unchanged timestamp the re-run reproduces
the crashed run's `Done` document exactly. -/
theorem C8_idempotent_up_to_timestamp_witness :
    (process_task (some "invoice due".toList) false (.failure [])
        "2026-01-01 00:00:00Z".toList "m".toList allOkFlags).doneWrite
      = (process_task (some "invoice due".toList) false (.failure [])
        "2026-01-01 00:00:00Z".toList "m".toList
        { allOkFlags with unlinkRaises := true }).doneWrite :=
  (C8_idempotent_up_to_timestamp "invoice due".toList false (.failure [])
    "2026-01-01 00:00:00Z".toList "2026-01-01 00:00:00Z".toList "m".toList
    (by decide) rfl).mpr rfl
